import Mathlib

/-!
Verification development for the `model_management` repository.

The Python source is shallowly embedded:
* `datetime` values become the `DateTime` structure (naive datetimes; Python
  compares them lexicographically on year, month, day, hour, minute, second,
  microsecond).
* `Model` (src/model_management/model.py) becomes the `Model` structure; the
  raising constructor `Model.__init__` becomes `Model.initExplicit` /
  `Model.init` returning `Except`.
* `ModelRegistry` (src/model_management/registry.py) becomes the
  `ModelRegistry` structure with its methods; methods that mutate `self`
  return the new registry value.
* JSON documents (the parsed result of `json.load`) become the `Json`
  inductive; `datetime.isoformat` / `datetime.fromisoformat` are implemented
  over strings, character for character.
-/

/-- Embedding of a naive Python `datetime.datetime`: the seven components.
Python validates the ranges at construction (`DateTime.Valid` below). -/
structure DateTime where
  year : Nat
  month : Nat
  day : Nat
  hour : Nat
  minute : Nat
  second : Nat
  microsecond : Nat
deriving DecidableEq, Repr

/-- Python compares naive datetimes lexicographically on their components. -/
def dtLt (a b : DateTime) : Bool :=
  decide (a.year < b.year ∨ (a.year = b.year ∧
    (a.month < b.month ∨ (a.month = b.month ∧
      (a.day < b.day ∨ (a.day = b.day ∧
        (a.hour < b.hour ∨ (a.hour = b.hour ∧
          (a.minute < b.minute ∨ (a.minute = b.minute ∧
            (a.second < b.second ∨ (a.second = b.second ∧
              a.microsecond < b.microsecond))))))))))))

/-- `a <= b` on datetimes. -/
def dtLe (a b : DateTime) : Bool := dtLt a b || decide (a = b)

/-- Leap-year test used by Python's calendar arithmetic. -/
def isLeap (y : Nat) : Bool := (y % 4 == 0 && y % 100 != 0) || y % 400 == 0

/-- Days in a month, as validated by `datetime.datetime`. -/
def daysInMonth (y m : Nat) : Nat :=
  if m == 2 then (if isLeap y then 29 else 28)
  else if m == 4 || m == 6 || m == 9 || m == 11 then 30
  else 31

/-- The component ranges `datetime.datetime` enforces at construction. -/
def DateTime.Valid (d : DateTime) : Prop :=
  1 ≤ d.year ∧ d.year ≤ 9999 ∧ 1 ≤ d.month ∧ d.month ≤ 12 ∧
  1 ≤ d.day ∧ d.day ≤ daysInMonth d.year d.month ∧
  d.hour ≤ 23 ∧ d.minute ≤ 59 ∧ d.second ≤ 59 ∧ d.microsecond ≤ 999999

instance (d : DateTime) : Decidable d.Valid := by
  unfold DateTime.Valid; infer_instance

/-- Embedding of Python exceptions raised by the code under verification. -/
inductive PyError where
  | valueError (msg : String)
  | keyError (key : String)
  | typeError (msg : String)
  | attributeError (msg : String)
deriving DecidableEq, Repr

/-- Lifecycle status enum (`ModelStatus` in model.py). -/
inductive ModelStatus where
  | active
  | deprecated
  | retired
deriving DecidableEq, Repr

/-- The `.value` string of each `ModelStatus` member. -/
def ModelStatus.value : ModelStatus → String
  | .active => "active"
  | .deprecated => "deprecated"
  | .retired => "retired"

/-- The `Model` attributes set by `Model.__init__` (model.py, lines 50-54). -/
structure Model where
  name : String
  version : String
  created_date : DateTime
  deprecation_date : Option DateTime
  retirement_date : Option DateTime
deriving DecidableEq, Repr

/-- `Model._validate_dates` (model.py, lines 58-69): three sequential
checks, each raising `ValueError` with its own message — deprecation before
creation; retirement before deprecation (both present); retirement before
creation (no deprecation).  A present datetime is always truthy in Python,
so the guards split exactly by which optional dates are present, which is
how they are written here; within each presence pattern the checks keep
their source order. -/
def Model._validate_dates : DateTime → Option DateTime → Option DateTime →
    Except PyError Unit
  | created, some d, some r =>
    if dtLt d created then
      .error (.valueError "Deprecation date cannot be before creation date")
    else if dtLt r d then
      .error (.valueError "Retirement date cannot be before deprecation date")
    else .ok ()
  | created, some d, none =>
    if dtLt d created then
      .error (.valueError "Deprecation date cannot be before creation date")
    else .ok ()
  | created, none, some r =>
    if dtLt r created then
      .error (.valueError "Retirement date cannot be before creation date")
    else .ok ()
  | _, none, none => .ok ()

/-- `Model.__init__` for an explicitly supplied `created_date`: sets the
attributes then runs `_validate_dates`; on failure the exception propagates
and no value is produced. -/
def Model.initExplicit (name version : String) (created : DateTime)
    (dep ret : Option DateTime) : Except PyError Model :=
  match Model._validate_dates created dep ret with
  | .error e => .error e
  | .ok _ => .ok ⟨name, version, created, dep, ret⟩

/-- `Model.__init__` in full: `created_date or datetime.now()` replaces an
absent (or `None`) creation date by the wall-clock reading `now`, which we
pass explicitly. -/
def Model.init (name version : String) (created : Option DateTime)
    (now : DateTime) (dep ret : Option DateTime) : Except PyError Model :=
  Model.initExplicit name version (created.getD now) dep ret

/-- `Model.get_status` (model.py, lines 71-89) with the reference date passed
explicitly (the `datetime.now()` default is a wall-clock read by the caller). -/
def Model.get_status (m : Model) (ref : DateTime) : ModelStatus :=
  if (match m.retirement_date with | some r => dtLe r ref | none => false) then
    .retired
  else if (match m.deprecation_date with | some d => dtLe d ref | none => false) then
    .deprecated
  else
    .active

/-- The ASCII digit character for `n % 10`. -/
def digitChar (n : Nat) : Char := Char.ofNat (48 + n % 10)

/-- `n` rendered in decimal, zero-padded to exactly `k` characters (the
low-order `k` digits, which is all of `n` whenever `n < 10 ^ k`). -/
def padNum : Nat → Nat → List Char
  | 0, _ => []
  | k + 1, n => digitChar (n / 10 ^ k) :: padNum k n

/-- `datetime.isoformat()`: `YYYY-MM-DDTHH:MM:SS`, followed by `.ffffff`
exactly when the microsecond component is nonzero. -/
def isoformat (d : DateTime) : String :=
  ⟨padNum 4 d.year ++ '-' :: padNum 2 d.month ++ '-' :: padNum 2 d.day ++
   'T' :: padNum 2 d.hour ++ ':' :: padNum 2 d.minute ++ ':' :: padNum 2 d.second ++
   (if d.microsecond == 0 then [] else '.' :: padNum 6 d.microsecond)⟩

/-- Decode one ASCII digit. -/
def readDigit (c : Char) : Option Nat :=
  if 48 ≤ c.toNat && c.toNat ≤ 57 then some (c.toNat - 48) else none

/-- Read exactly `k` decimal digits, most significant first, onto `acc`. -/
def readDigits : Nat → Nat → List Char → Option (Nat × List Char)
  | 0, acc, cs => some (acc, cs)
  | k + 1, acc, cs =>
    match cs with
    | [] => none
    | c :: rest =>
      match readDigit c with
      | some d => readDigits k (acc * 10 + d) rest
      | none => none

/-- Consume one expected literal character. -/
def expectChar (c : Char) : List Char → Option (List Char)
  | c2 :: rest => if c2 = c then some rest else none
  | [] => none

/-- `datetime.fromisoformat` on the grammar `isoformat` emits
(`YYYY-MM-DDTHH:MM:SS` with optional `.ffffff`); the reconstructed components
go through the same range validation as `datetime.datetime`'s constructor.
(The date-only and truncated-time forms Python also accepts never arise from
this code base and are not modelled.) -/
def fromisoformatChars (cs : List Char) : Option DateTime := do
  let (y, cs) ← readDigits 4 0 cs
  let cs ← expectChar '-' cs
  let (mo, cs) ← readDigits 2 0 cs
  let cs ← expectChar '-' cs
  let (da, cs) ← readDigits 2 0 cs
  let cs ← expectChar 'T' cs
  let (h, cs) ← readDigits 2 0 cs
  let cs ← expectChar ':' cs
  let (mi, cs) ← readDigits 2 0 cs
  let cs ← expectChar ':' cs
  let (s, cs) ← readDigits 2 0 cs
  let (us, cs) ←
    match cs with
    | [] => some (0, ([] : List Char))
    | c :: rest => if c = '.' then readDigits 6 0 rest else none
  if cs = [] then
    let d : DateTime := ⟨y, mo, da, h, mi, s, us⟩
    if d.Valid then some d else none
  else
    none

/-- `datetime.fromisoformat` on a string. -/
def fromisoformat (s : String) : Option DateTime := fromisoformatChars s.data

/-- Parsed JSON documents, the result of `json.load`. -/
inductive Json where
  | null
  | str (s : String)
  | num (n : Int)
  | arr (elems : List Json)
  | obj (fields : List (String × Json))

/-- Python truthiness of a JSON value (`None`, `""`, `0`, `[]` and the empty
dict are falsy). -/
def Json.truthy : Json → Bool
  | .null => false
  | .str s => !s.data.isEmpty
  | .num n => n != 0
  | .arr xs => !xs.isEmpty
  | .obj fs => !fs.isEmpty

/-- `dict.get(key)`: `some` value or `none` (dict keys are unique, so the
first binding is the binding). -/
def dictGet (fields : List (String × Json)) (key : String) : Option Json :=
  (fields.find? (fun kv => kv.1 == key)).map (fun kv => kv.2)

/-- `dict.get(key, default)`. -/
def dictGetD (fields : List (String × Json)) (key : String) (dflt : Json) : Json :=
  (dictGet fields key).getD dflt

/-- `data[key]`: raises `KeyError` when the key is absent. -/
def dictGetItem (fields : List (String × Json)) (key : String) :
    Except PyError Json :=
  match dictGet fields key with
  | some v => .ok v
  | none => .error (.keyError key)

/-- A JSON value used where Python expects a `str` (the model's `name` and
`version` fields); any other value would not fit the string-typed data model. -/
def Json.asStr : Json → Except PyError String
  | .str s => .ok s
  | _ => .error (.typeError "expected a string value")

/-- `datetime.fromisoformat(value)`: `TypeError` on a non-string argument,
`ValueError` on an unparsable string. -/
def fromisoformatJson : Json → Except PyError DateTime
  | .str s =>
    match fromisoformat s with
    | some d => .ok d
    | none => .error (.valueError ("Invalid isoformat string: " ++ s))
  | _ => .error (.typeError "fromisoformat: argument must be str")

/-- `Model.to_dict` (model.py, lines 103-112), with the wall-clock reading
used by the derived `status` field passed in as `now`. -/
def Model.to_dict (m : Model) (now : DateTime) : Json :=
  .obj [("name", .str m.name),
        ("version", .str m.version),
        ("created_date", .str (isoformat m.created_date)),
        ("deprecation_date",
          match m.deprecation_date with
          | some d => .str (isoformat d)
          | none => .null),
        ("retirement_date",
          match m.retirement_date with
          | some r => .str (isoformat r)
          | none => .null),
        ("status", .str (m.get_status now).value)]

/-- `Model.from_dict` (model.py, lines 114-123): the keyword arguments are
evaluated in source order (`name`, `version`, `created_date`,
`deprecation_date`, `retirement_date`), the first raised exception
propagating; `data.get(...)` guards the optional dates by truthiness; the
resulting call into `cls(...)` re-runs `_validate_dates`. -/
def Model.from_dict (data : Json) : Except PyError Model :=
  match data with
  | .obj fields => do
    let nameJ ← dictGetItem fields "name"
    let name ← nameJ.asStr
    let versionJ ← dictGetItem fields "version"
    let version ← versionJ.asStr
    let createdJ ← dictGetItem fields "created_date"
    let created ← fromisoformatJson createdJ
    let dep ←
      (if (dictGetD fields "deprecation_date" .null).truthy then do
        let d ← fromisoformatJson (dictGetD fields "deprecation_date" .null)
        pure (some d)
      else
        pure none)
    let ret ←
      (if (dictGetD fields "retirement_date" .null).truthy then do
        let r ← fromisoformatJson (dictGetD fields "retirement_date" .null)
        pure (some r)
      else
        pure none)
    Model.initExplicit name version created dep ret
  | _ => .error (.typeError "string indices must be integers")

/-- `ModelRegistry` (registry.py): an internal ordered list of models. -/
structure ModelRegistry where
  _models : List Model
deriving DecidableEq, Repr

/-- `ModelRegistry.__init__`. -/
def ModelRegistry.empty : ModelRegistry := ⟨[]⟩

/-- `ModelRegistry.get_model` (registry.py, lines 59-73): the first model in
order whose name and version both match, else `None`. -/
def ModelRegistry.get_model (r : ModelRegistry) (name version : String) :
    Option Model :=
  r._models.find? (fun m => m.name == name && m.version == version)

/-- `ModelRegistry.add_model` (registry.py, lines 28-40): raises `ValueError`
when `get_model` finds an existing entry, otherwise appends. -/
def ModelRegistry.add_model (r : ModelRegistry) (m : Model) :
    Except PyError ModelRegistry :=
  match r.get_model m.name m.version with
  | some _ => .error (.valueError
      ("Model " ++ m.name ++ " v" ++ m.version ++ " already exists in registry"))
  | none => .ok ⟨r._models ++ [m]⟩

/-- `ModelRegistry.remove_model` (registry.py, lines 42-57): looks up the
first match, removes that very object with `list.remove` (which deletes the
first occurrence equal to it), and reports whether a removal happened. -/
def ModelRegistry.remove_model (r : ModelRegistry) (name version : String) :
    Bool × ModelRegistry :=
  match r.get_model name version with
  | some m => (true, ⟨r._models.erase m⟩)
  | none => (false, r)

/-- `ModelRegistry.get_all_models` (registry.py, lines 75-77): a copy of the
internal list (value semantics make the copy implicit). -/
def ModelRegistry.get_all_models (r : ModelRegistry) : List Model :=
  r._models

/-- `ModelRegistry.get_models_by_status` (registry.py, lines 79-97), with the
reference date passed explicitly. -/
def ModelRegistry.get_models_by_status (r : ModelRegistry) (status : ModelStatus)
    (ref : DateTime) : List Model :=
  r._models.filter (fun m => m.get_status ref == status)

/-- `ModelRegistry.get_models_by_name` (registry.py, lines 111-121). -/
def ModelRegistry.get_models_by_name (r : ModelRegistry) (name : String) :
    List Model :=
  r._models.filter (fun m => m.name == name)

/-- The document `save_to_file` serializes: a dict with the single key
`models` holding the per-model dicts in registry order (registry.py,
lines 130-132). -/
def ModelRegistry.save_document (r : ModelRegistry) (now : DateTime) : Json :=
  .obj [("models", .arr (r._models.map (fun m => m.to_dict now)))]

/-- `json.dump` of one `to_dict` dict: the keys in insertion order, string
values quoted, absent dates as `null`.  The concrete whitespace layout
(`indent=2`) is abstracted to single spaces; no claim depends on the
whitespace, only on the full text versus its truncations. -/
def dumpOptIso : Option DateTime → String
  | some d => "\"" ++ isoformat d ++ "\""
  | none => "null"

/-- Serialized text of one model dict. -/
def dumpModelDict (m : Model) (now : DateTime) : String :=
  "\x7b\"name\": \"" ++ m.name ++ "\", \"version\": \"" ++ m.version ++
  "\", \"created_date\": \"" ++ isoformat m.created_date ++
  "\", \"deprecation_date\": " ++ dumpOptIso m.deprecation_date ++
  ", \"retirement_date\": " ++ dumpOptIso m.retirement_date ++
  ", \"status\": \"" ++ (m.get_status now).value ++ "\"\x7d"

/-- The full text `save_to_file` writes to the destination (registry.py,
lines 137-138). -/
def ModelRegistry.save_text (r : ModelRegistry) (now : DateTime) : String :=
  "\x7b\"models\": [" ++
  String.intercalate ", " (r._models.map (fun m => dumpModelDict m now)) ++
  "]\x7d"

/-- The destination-file contents observable while `save_to_file` runs:
`open(filepath, "w")` truncates the file to empty in place before
`json.dump` streams the text into it, so an interruption at any point leaves
some prefix of the final text (the empty file immediately after the open).
Contents are modelled as character lists. -/
def ModelRegistry.save_observable_contents (r : ModelRegistry) (now : DateTime) :
    List (List Char) :=
  (List.range ((r.save_text now).data.length + 1)).map
    (fun i => (r.save_text now).data.take i)

/-- The Python list comprehension
`[Model.from_dict(model_data) for model_data in ...]` (registry.py,
line 153): elements left to right, the first raised exception aborting the
whole comprehension. -/
def fromDictList : List Json → Except PyError (List Model)
  | [] => .ok []
  | record :: rest =>
    match Model.from_dict record with
    | .error e => .error e
    | .ok m =>
      match fromDictList rest with
      | .error e => .error e
      | .ok ms => .ok (m :: ms)

/-- Iterating a JSON value with a `for` loop: only a list is iterable here
(`TypeError` otherwise). -/
def Json.asList : Json → Except PyError (List Json)
  | .arr xs => .ok xs
  | _ => .error (.typeError "object is not iterable")

/-- `ModelRegistry.load_from_file` (registry.py, lines 140-153) applied to
the parsed document (`json.load`'s result; reading and text-level parsing of
the file are outside the model).  `data.get("models", [])` supplies an empty
list when the key is absent; the assignment `self._models = [...]` runs only
after the whole comprehension has succeeded, so on any exception the prior
contents survive.  Returns the resulting registry and the raised exception,
if any. -/
def ModelRegistry.load_from_file (r : ModelRegistry) (doc : Json) :
    ModelRegistry × Option PyError :=
  match doc with
  | .obj fields =>
    match (dictGetD fields "models" (.arr [])).asList with
    | .error e => (r, some e)
    | .ok records =>
      match fromDictList records with
      | .error e => (r, some e)
      | .ok ms => (⟨ms⟩, none)
  | _ => (r, some (.attributeError "object has no attribute get"))

/-- One registry operation, as issued by a caller. -/
inductive RegistryOp where
  | add (m : Model)
  | remove (name version : String)
  | load (doc : Json)

/-- Applying one operation to the registry state: a raised exception leaves
the state as the operation left it (for `add_model` and a failed
`load_from_file`, unchanged). -/
def applyOp (r : ModelRegistry) : RegistryOp → ModelRegistry
  | .add m =>
    match r.add_model m with
    | .ok r2 => r2
    | .error _ => r
  | .remove name version => (r.remove_model name version).2
  | .load doc => (r.load_from_file doc).1

/-- A caller-issued sequence of operations, applied in order. -/
def applyOps (r : ModelRegistry) (ops : List RegistryOp) : ModelRegistry :=
  ops.foldl applyOp r

/-- Invariant I4: no two entries of the list share the `(name, version)`
key. -/
def NoDupKeys (l : List Model) : Prop :=
  l.Pairwise (fun a b => ¬(a.name = b.name ∧ a.version = b.version))

instance (l : List Model) : Decidable (NoDupKeys l) := by
  unfold NoDupKeys; infer_instance

/-! Concrete values used by witnesses and counterexamples. -/

/-- Midnight 2020-01-01. -/
def t2020 : DateTime := ⟨2020, 1, 1, 0, 0, 0, 0⟩

/-- Midnight 2021-01-01. -/
def t2021 : DateTime := ⟨2021, 1, 1, 0, 0, 0, 0⟩

/-- Midnight 2022-01-01. -/
def t2022 : DateTime := ⟨2022, 1, 1, 0, 0, 0, 0⟩

/-- Midnight 2023-01-01. -/
def t2023 : DateTime := ⟨2023, 1, 1, 0, 0, 0, 0⟩

/-- A model with no milestones. -/
def mA : Model := ⟨"m", "1", t2020, none, none⟩

/-- A second, distinct model value with the same key as `mA`. -/
def mA2 : Model := ⟨"m", "1", t2021, none, none⟩

/-- A model deprecated at 2021 and retired at 2022. -/
def mFull : Model := ⟨"full", "1", t2020, some t2021, some t2022⟩

/-- The serialized record of `mA` (without the write-only `status` field,
which `from_dict` ignores anyway). -/
def recA : Json :=
  .obj [("name", .str "m"), ("version", .str "1"),
        ("created_date", .str "2020-01-01T00:00:00")]

/-- A record whose `created_date` cannot be parsed. -/
def recBadTs : Json :=
  .obj [("name", .str "b"), ("version", .str "1"),
        ("created_date", .str "not-a-date")]

/-- A document holding the same record twice. -/
def docDup : Json := .obj [("models", .arr [recA, recA])]

/-- A document whose second record fails to deserialize. -/
def docBad : Json := .obj [("models", .arr [recA, recBadTs])]

/-! Predicates used to state the claims. -/

/-- The retirement clause of the status decision fires: a retirement date is
present and the reference time is at or after it. -/
def retirementFires (m : Model) (t : DateTime) : Prop :=
  ∃ r, m.retirement_date = some r ∧ dtLe r t = true

/-- The deprecation clause of the status decision fires: a deprecation date
is present and the reference time is at or after it. -/
def deprecationFires (m : Model) (t : DateTime) : Prop :=
  ∃ d, m.deprecation_date = some d ∧ dtLe d t = true

/-- Invariant I1: the deprecation date, when present, is at or after the
creation date. -/
def InvariantI1 (created : DateTime) (dep : Option DateTime) : Prop :=
  ∀ d, dep = some d → dtLe created d = true

/-- Invariant I2: when both are present, the retirement date is at or after
the deprecation date. -/
def InvariantI2 (dep ret : Option DateTime) : Prop :=
  ∀ d r, dep = some d → ret = some r → dtLe d r = true

/-- Invariant I3: when only the retirement date is present, it is at or
after the creation date. -/
def InvariantI3 (created : DateTime) (dep ret : Option DateTime) : Prop :=
  dep = none → ∀ r, ret = some r → dtLe created r = true

/-! Order lemmas for the datetime embedding. -/

/-- Trichotomy link between the strict and reflexive comparisons:
Python's `not (a < b)` is exactly `b <= a`. -/
theorem dtLt_eq_false_iff (a b : DateTime) :
    dtLt a b = false ↔ dtLe b a = true := by
  cases a; cases b
  simp only [dtLt, dtLe, DateTime.mk.injEq, Bool.or_eq_true, decide_eq_true_eq,
    decide_eq_false_iff_not]
  omega

/-- Reflexivity of the datetime `<=`. -/
theorem dtLe_refl (a : DateTime) : dtLe a a = true := by
  simp [dtLe]

/-- A datetime at or before another is in particular not past it. -/
theorem dtLe_eq_false_ne {a b : DateTime} (h : dtLe a b = false) : ¬a = b := by
  intro he
  subst he
  rw [dtLe_refl] at h
  simp at h

/-- C4: for every entity and reference time, `get_status` returns retired
exactly when a retirement date is present and the reference time is at or
after it; otherwise deprecated exactly when a deprecation date is present and
the reference time is at or after it; otherwise active.  At the retirement
instant itself the result is retired, and at the deprecation instant it is
deprecated whenever the retirement clause does not fire. -/
theorem C4_status_decision_order (m : Model) (t : DateTime) :
    (m.get_status t = .retired ↔ retirementFires m t)
    ∧ (m.get_status t = .deprecated ↔ (¬ retirementFires m t ∧ deprecationFires m t))
    ∧ (m.get_status t = .active ↔ (¬ retirementFires m t ∧ ¬ deprecationFires m t))
    ∧ (m.retirement_date = some t → m.get_status t = .retired)
    ∧ (m.deprecation_date = some t → ¬ retirementFires m t → m.get_status t = .deprecated) := by
  obtain ⟨name, version, c, dep, ret⟩ := m
  rcases ret with _ | r <;> rcases dep with _ | d
  · simp [Model.get_status, retirementFires, deprecationFires]
  · cases hdt : dtLe d t <;>
      simp [Model.get_status, retirementFires, deprecationFires, hdt, dtLe_refl]
    exact dtLe_eq_false_ne hdt
  · cases hrt : dtLe r t <;>
      simp [Model.get_status, retirementFires, deprecationFires, hrt, dtLe_refl]
    exact dtLe_eq_false_ne hrt
  · cases hrt : dtLe r t <;> cases hdt : dtLe d t <;>
      simp [Model.get_status, retirementFires, deprecationFires, hrt, hdt, dtLe_refl]
    · exact ⟨dtLe_eq_false_ne hrt, dtLe_eq_false_ne hdt⟩
    · exact dtLe_eq_false_ne hrt

/-- Witness for C4: at its retirement instant `mFull` is retired, and at its
deprecation instant (with the retirement clause not firing) it is
deprecated. -/
theorem C4_status_decision_order_witness :
    mFull.get_status t2022 = ModelStatus.retired
    ∧ mFull.get_status t2021 = ModelStatus.deprecated := by
  constructor
  · exact (C4_status_decision_order mFull t2022).2.2.2.1 rfl
  · refine (C4_status_decision_order mFull t2021).2.2.2.2 rfl ?_
    rintro ⟨r, hr, hle⟩
    obtain rfl : t2022 = r := by simpa [mFull] using hr
    exact absurd hle (by decide)

/-- Strict/reflexive link in the other direction. -/
theorem dtLt_eq_true_iff (a b : DateTime) : dtLt a b = true ↔ dtLe b a = false := by
  constructor
  · intro h
    cases h2 : dtLe b a
    · rfl
    · have hf := (dtLt_eq_false_iff a b).mpr h2
      rw [hf] at h
      exact absurd h (by simp)
  · intro h
    cases h1 : dtLt a b
    · have hf := (dtLt_eq_false_iff a b).mp h1
      rw [hf] at h
      exact absurd h (by simp)
    · rfl

/-- C5: construction succeeds exactly when invariants I1-I3 all hold, and on
failure the first violated invariant in the order I1, I2, I3 determines
which of the three distinct `ValueError` kinds is raised. -/
theorem C5_construction_validation (name version : String) (c : DateTime)
    (dep ret : Option DateTime) :
    ((∃ m, Model.initExplicit name version c dep ret = .ok m) ↔
      (InvariantI1 c dep ∧ InvariantI2 dep ret ∧ InvariantI3 c dep ret))
    ∧ (¬ InvariantI1 c dep →
        Model.initExplicit name version c dep ret =
          .error (.valueError "Deprecation date cannot be before creation date"))
    ∧ (InvariantI1 c dep → ¬ InvariantI2 dep ret →
        Model.initExplicit name version c dep ret =
          .error (.valueError "Retirement date cannot be before deprecation date"))
    ∧ (InvariantI1 c dep → InvariantI2 dep ret → ¬ InvariantI3 c dep ret →
        Model.initExplicit name version c dep ret =
          .error (.valueError "Retirement date cannot be before creation date")) := by
  rcases dep with _ | d <;> rcases ret with _ | r
  · simp [Model.initExplicit, Model._validate_dates, InvariantI1, InvariantI2, InvariantI3]
  · cases h3 : dtLt r c
    · simp [Model.initExplicit, Model._validate_dates, InvariantI1, InvariantI2, InvariantI3,
        h3, (dtLt_eq_false_iff r c).mp h3]
    · simp [Model.initExplicit, Model._validate_dates, InvariantI1, InvariantI2, InvariantI3,
        h3, (dtLt_eq_true_iff r c).mp h3]
  · cases h1 : dtLt d c
    · simp [Model.initExplicit, Model._validate_dates, InvariantI1, InvariantI2, InvariantI3,
        h1, (dtLt_eq_false_iff d c).mp h1]
    · simp [Model.initExplicit, Model._validate_dates, InvariantI1, InvariantI2, InvariantI3,
        h1, (dtLt_eq_true_iff d c).mp h1]
  · cases h1 : dtLt d c
    · cases h2 : dtLt r d
      · simp [Model.initExplicit, Model._validate_dates, InvariantI1, InvariantI2, InvariantI3,
          h1, h2, (dtLt_eq_false_iff d c).mp h1, (dtLt_eq_false_iff r d).mp h2]
      · simp [Model.initExplicit, Model._validate_dates, InvariantI1, InvariantI2, InvariantI3,
          h1, h2, (dtLt_eq_false_iff d c).mp h1, (dtLt_eq_true_iff r d).mp h2]
    · simp [Model.initExplicit, Model._validate_dates, InvariantI1, InvariantI2, InvariantI3,
        h1, (dtLt_eq_true_iff d c).mp h1]

/-- Witness for C5: a retirement-only model dated before its creation raises
the retirement-before-creation error, and a fully ordered triple
constructs successfully. -/
theorem C5_construction_validation_witness :
    Model.initExplicit "w" "1" t2021 none (some t2020) =
      Except.error (PyError.valueError "Retirement date cannot be before creation date")
    ∧ ∃ m, Model.initExplicit "w" "1" t2020 (some t2021) (some t2022) = Except.ok m := by
  constructor
  · refine (C5_construction_validation "w" "1" t2021 none (some t2020)).2.2.2
      ?_ ?_ ?_
    · intro d h
      cases h
    · intro d r h
      cases h
    · intro h3
      have := h3 rfl t2020 rfl
      exact absurd this (by decide)
  · refine (C5_construction_validation "w" "1" t2020 (some t2021) (some t2022)).1.mpr
      ⟨?_, ?_, ?_⟩
    · intro d h
      cases h
      decide
    · intro d r h h2
      cases h
      cases h2
      decide
    · intro h
      cases h

/-- Counterexample to C6 as stated: constructing with an empty name and an
empty version succeeds and produces a value, so successful construction does
not guarantee non-empty identifiers. -/
theorem C6_counterexample :
    Model.initExplicit "" "" t2020 none none =
      Except.ok (Model.mk "" "" t2020 none none) := rfl

/-- C6 amended: construction validates only the date ordering; the name and
version strings are stored untouched, so any strings — empty ones
included — yield a value whenever the dates validate. -/
theorem C6_construction_ignores_name_version (name version : String)
    (c : DateTime) (dep ret : Option DateTime)
    (h : Model._validate_dates c dep ret = Except.ok ()) :
    Model.initExplicit name version c dep ret =
      Except.ok (Model.mk name version c dep ret) := by
  unfold Model.initExplicit
  rw [h]

/-- Witness for the amended C6 at empty name and version with a present
deprecation date. -/
theorem C6_construction_ignores_name_version_witness :
    Model.initExplicit "" "" t2020 (some t2021) none =
      Except.ok (Model.mk "" "" t2020 (some t2021) none) :=
  C6_construction_ignores_name_version "" "" t2020 (some t2021) none (by rfl)

/-- Filtering a model list by each of the three statuses at one reference
time splits it: the three filtrates together are a permutation of the
list. -/
theorem filter_status_perm (l : List Model) (t : DateTime) :
    (l.filter (fun m => m.get_status t == ModelStatus.active) ++
     l.filter (fun m => m.get_status t == ModelStatus.deprecated) ++
     l.filter (fun m => m.get_status t == ModelStatus.retired)).Perm l := by
  induction l with
  | nil => simp
  | cons a l ih =>
    cases h : a.get_status t <;>
      simp only [List.filter_cons, h, beq_self_eq_true, if_true, if_false,
        show (ModelStatus.active == ModelStatus.deprecated) = false from rfl,
        show (ModelStatus.active == ModelStatus.retired) = false from rfl,
        show (ModelStatus.deprecated == ModelStatus.active) = false from rfl,
        show (ModelStatus.deprecated == ModelStatus.retired) = false from rfl,
        show (ModelStatus.retired == ModelStatus.active) = false from rfl,
        show (ModelStatus.retired == ModelStatus.deprecated) = false from rfl]
    · exact (List.cons_append _ _ _ ▸ ih.cons a)
    · rw [List.append_assoc, List.cons_append]
      refine List.perm_middle.trans (List.Perm.cons a ?_)
      rw [← List.append_assoc]
      exact ih
    · exact List.perm_middle.trans (List.Perm.cons a ih)

/-- C9: at a fixed reference time the three status queries partition the
full enumeration — together they are a permutation of `get_all_models`, each
preserves the enumeration order (sublist), and every listed entity belongs
to exactly one of the three. -/
theorem C9_status_partition (r : ModelRegistry) (t : DateTime) :
    ((r.get_models_by_status .active t ++ r.get_models_by_status .deprecated t ++
      r.get_models_by_status .retired t).Perm r.get_all_models)
    ∧ (∀ s, (r.get_models_by_status s t).Sublist r.get_all_models)
    ∧ (∀ m ∈ r.get_all_models,
        (m ∈ r.get_models_by_status .active t
          ∧ m ∉ r.get_models_by_status .deprecated t
          ∧ m ∉ r.get_models_by_status .retired t)
        ∨ (m ∉ r.get_models_by_status .active t
          ∧ m ∈ r.get_models_by_status .deprecated t
          ∧ m ∉ r.get_models_by_status .retired t)
        ∨ (m ∉ r.get_models_by_status .active t
          ∧ m ∉ r.get_models_by_status .deprecated t
          ∧ m ∈ r.get_models_by_status .retired t)) := by
  refine ⟨filter_status_perm r._models t, fun s => List.filter_sublist _, ?_⟩
  intro m hm
  cases h : m.get_status t
  · left
    simp [ModelRegistry.get_models_by_status, ModelRegistry.get_all_models,
      List.mem_filter, h] at hm ⊢
    exact hm
  · right; left
    simp [ModelRegistry.get_models_by_status, ModelRegistry.get_all_models,
      List.mem_filter, h] at hm ⊢
    exact hm
  · right; right
    simp [ModelRegistry.get_models_by_status, ModelRegistry.get_all_models,
      List.mem_filter, h] at hm ⊢
    exact hm

/-- Witness for C9 (the inner partition statement has the membership
hypothesis): at reference time 2021 the registry holding `mA` and `mFull`
lists `mFull` in exactly the deprecated partition. -/
theorem C9_status_partition_witness :
    mFull ∉ (ModelRegistry.mk [mA, mFull]).get_models_by_status .active t2021
    ∧ mFull ∈ (ModelRegistry.mk [mA, mFull]).get_models_by_status .deprecated t2021
    ∧ mFull ∉ (ModelRegistry.mk [mA, mFull]).get_models_by_status .retired t2021 := by
  have h := (C9_status_partition (ModelRegistry.mk [mA, mFull]) t2021).2.2 mFull
    (by simp [ModelRegistry.get_all_models])
  rcases h with h | h | h
  · exact absurd h.1 (by decide)
  · exact h
  · exact absurd h.2.2 (by decide)

/-- `find?` skips a prefix on which the predicate is everywhere false. -/
theorem find?_append_none {p : Model → Bool} {l1 : List Model}
    (h : ∀ x ∈ l1, p x = false) (l2 : List Model) :
    (l1 ++ l2).find? p = l2.find? p := by
  induction l1 with
  | nil => rfl
  | cons a l ih =>
    have ha := h a (by simp)
    rw [List.cons_append, List.find?_cons_of_neg _ (by simp [ha])]
    exact ih (fun x hx => h x (by simp [hx]))

/-- `erase` removes the head occurrence when the prefix misses the value. -/
theorem erase_append_not_mem {l1 : List Model} {m : Model} (h : m ∉ l1)
    (l2 : List Model) : (l1 ++ m :: l2).erase m = l1 ++ l2 := by
  induction l1 with
  | nil => simp
  | cons a l ih =>
    have hne : ¬(a = m) := fun he => h (he ▸ List.mem_cons_self a l)
    rw [List.cons_append, List.erase_cons_tail, List.cons_append]
    · rw [ih (fun hm => h (List.mem_cons_of_mem a hm))]
    · simp [hne]

/-- C10: in a registry whose internal list holds several entries with the
same key (reachable through a load), `get_model` returns the first matching
entry in enumeration order and `remove_model` removes exactly that first
occurrence (reporting `True`), leaving everything after it — later
duplicates included — in place. -/
theorem C10_duplicate_first_occurrence (name version : String)
    (l1 l2 : List Model) (m : Model)
    (hm : m.name = name ∧ m.version = version)
    (h1 : ∀ x ∈ l1, ¬(x.name = name ∧ x.version = version)) :
    (ModelRegistry.mk (l1 ++ m :: l2)).get_model name version = some m
    ∧ (ModelRegistry.mk (l1 ++ m :: l2)).remove_model name version =
        (true, ModelRegistry.mk (l1 ++ l2)) := by
  have hfalse : ∀ x ∈ l1, (x.name == name && x.version == version) = false := by
    intro x hx
    cases hpx : (x.name == name && x.version == version)
    · rfl
    · exact absurd (by simpa using hpx) (h1 x hx)
  have hget : (ModelRegistry.mk (l1 ++ m :: l2)).get_model name version = some m := by
    unfold ModelRegistry.get_model
    rw [show (ModelRegistry.mk (l1 ++ m :: l2))._models = l1 ++ m :: l2 from rfl]
    rw [find?_append_none hfalse (m :: l2)]
    rw [List.find?_cons_of_pos _ (by simp [hm.1, hm.2])]
  refine ⟨hget, ?_⟩
  have hnotmem : m ∉ l1 := fun hmem => h1 m hmem hm
  unfold ModelRegistry.remove_model
  rw [hget]
  show (true, ModelRegistry.mk ((l1 ++ m :: l2).erase m)) =
    (true, ModelRegistry.mk (l1 ++ l2))
  rw [erase_append_not_mem hnotmem l2]

/-- Witness for C10: with two same-key entries `mA, mA2`, lookup returns the
first (`mA`) and removal deletes it, keeping the later duplicate `mA2`. -/
theorem C10_duplicate_first_occurrence_witness :
    (ModelRegistry.mk [mA, mA2]).get_model "m" "1" = some mA
    ∧ (ModelRegistry.mk [mA, mA2]).remove_model "m" "1" =
        (true, ModelRegistry.mk [mA2]) := by
  have h := C10_duplicate_first_occurrence "m" "1" [] [mA2] mA (by decide)
    (by intro x hx; exact absurd hx (List.not_mem_nil x))
  simpa using h

/-- If any record of the list fails to deserialize, the whole comprehension
raises. -/
theorem fromDictList_error_of_mem {records : List Json} {record : Json}
    {e : PyError} (hmem : record ∈ records)
    (he : Model.from_dict record = Except.error e) :
    ∃ e2, fromDictList records = Except.error e2 := by
  induction records with
  | nil => cases hmem
  | cons a l ih =>
    rcases List.mem_cons.mp hmem with rfl | hmem2
    · refine ⟨e, ?_⟩
      unfold fromDictList
      rw [he]
    · cases hfa : Model.from_dict a with
      | error e3 =>
        refine ⟨e3, ?_⟩
        unfold fromDictList
        rw [hfa]
      | ok m =>
        obtain ⟨e2, h2⟩ := ih hmem2
        refine ⟨e2, ?_⟩
        unfold fromDictList
        rw [hfa, h2]

/-- C2: when any single entity record of the source document fails to
deserialize, the load raises and the registry's contents are exactly what
they were before the call — the replacement assignment never runs, so
there is no partial replacement. -/
theorem C2_load_failure_preserves_contents (r : ModelRegistry)
    (fields : List (String × Json)) (records : List Json)
    (hrecs : dictGetD fields "models" (Json.arr []) = Json.arr records)
    (hfail : ∃ record ∈ records, ∃ e, Model.from_dict record = Except.error e) :
    (r.load_from_file (Json.obj fields)).1 = r
    ∧ ∃ e, (r.load_from_file (Json.obj fields)).2 = some e := by
  obtain ⟨record, hmem, e, he⟩ := hfail
  obtain ⟨e2, h2⟩ := fromDictList_error_of_mem hmem he
  constructor
  · simp [ModelRegistry.load_from_file, hrecs, Json.asList, h2]
  · exact ⟨e2, by simp [ModelRegistry.load_from_file, hrecs, Json.asList, h2]⟩

/-- Witness for C2: loading a document whose second record has an
unparsable timestamp leaves the one-model registry untouched and raises. -/
theorem C2_load_failure_preserves_contents_witness :
    ((ModelRegistry.mk [mA]).load_from_file docBad).1 = ModelRegistry.mk [mA]
    ∧ ∃ e, ((ModelRegistry.mk [mA]).load_from_file docBad).2 = some e := by
  refine C2_load_failure_preserves_contents (ModelRegistry.mk [mA])
    [("models", Json.arr [recA, recBadTs])] [recA, recBadTs] rfl ?_
  refine ⟨recBadTs, by simp,
    PyError.valueError "Invalid isoformat string: not-a-date", ?_⟩
  rfl

/-- Counterexample to C8 as stated: loading a well-formed document that
lacks the top-level `models` field does not fail with a parse error — it
succeeds (no exception) and replaces the prior contents with the empty
collection. -/
theorem C8_counterexample :
    (ModelRegistry.mk [mA]).load_from_file (Json.obj []) =
      (ModelRegistry.mk [], none) := rfl

/-- C8 amended: `data.get("models", [])` substitutes an empty list for a
missing `models` field, so the load succeeds and leaves the registry
empty instead of raising. -/
theorem C8_missing_models_loads_empty (r : ModelRegistry)
    (fields : List (String × Json))
    (h : dictGet fields "models" = none) :
    r.load_from_file (Json.obj fields) = (ModelRegistry.mk [], none) := by
  simp [ModelRegistry.load_from_file, dictGetD, h, Json.asList, fromDictList]

/-- Witness for the amended C8 on a document with unrelated fields only. -/
theorem C8_missing_models_loads_empty_witness :
    (ModelRegistry.mk [mA, mFull]).load_from_file
      (Json.obj [("version", Json.num 1)]) = (ModelRegistry.mk [], none) :=
  C8_missing_models_loads_empty (ModelRegistry.mk [mA, mFull])
    [("version", Json.num 1)] rfl

/-- Counterexample to C1 as stated: starting from the empty registry, the
single-operation sequence `load docDup` — whose document repeats one record —
succeeds and leaves two entities with the same `(name, version)` pair, so
invariant I4 does not survive arbitrary sequences that include loads. -/
theorem C1_counterexample :
    ¬ NoDupKeys (applyOps (ModelRegistry.mk []) [RegistryOp.load docDup])._models := by
  decide

/-- Appending a model whose key `get_model` does not find preserves key
uniqueness. -/
theorem noDupKeys_append_of_get_none {r : ModelRegistry} {m : Model}
    (hnd : NoDupKeys r._models) (h : r.get_model m.name m.version = none) :
    NoDupKeys (r._models ++ [m]) := by
  rw [NoDupKeys, List.pairwise_append]
  refine ⟨hnd, List.pairwise_singleton _ _, ?_⟩
  intro a ha b hb
  simp only [List.mem_singleton] at hb
  subst hb
  have hall := List.find?_eq_none.mp h a ha
  intro hab
  apply hall
  simp [hab.1, hab.2]

/-- A single add or remove operation preserves invariant I4. -/
theorem applyOp_preserves_noDupKeys (r : ModelRegistry) (op : RegistryOp)
    (hnl : ∀ doc, op ≠ .load doc) (hnd : NoDupKeys r._models) :
    NoDupKeys (applyOp r op)._models := by
  cases op with
  | add m =>
    simp only [applyOp, ModelRegistry.add_model]
    cases hg : r.get_model m.name m.version with
    | some m2 => simp only [hg]; exact hnd
    | none => simp only [hg]; exact noDupKeys_append_of_get_none hnd hg
  | remove n v =>
    simp only [applyOp, ModelRegistry.remove_model]
    cases hg : r.get_model n v with
    | some m2 =>
      simp only [hg]
      exact List.Pairwise.sublist (List.erase_sublist _ _) hnd
    | none => simp only [hg]; exact hnd
  | load doc => exact absurd rfl (hnl doc)

/-- C1 amended: starting from the empty registry, invariant I4 (no two
entities share a `(name, version)` pair) holds after every sequence of add
and remove operations; `load_from_file` does not enforce the invariant and
can introduce duplicates, so load operations are excluded. -/
theorem C1_add_remove_preserve_unique_keys (ops : List RegistryOp)
    (h : ∀ op ∈ ops, ∀ doc, op ≠ RegistryOp.load doc) :
    NoDupKeys (applyOps (ModelRegistry.mk []) ops)._models := by
  have main : ∀ (l : List RegistryOp) (r : ModelRegistry),
      (∀ op ∈ l, ∀ doc, op ≠ RegistryOp.load doc) →
      NoDupKeys r._models → NoDupKeys (applyOps r l)._models := by
    intro l
    induction l with
    | nil => exact fun r _ hr => hr
    | cons op rest ih =>
      intro r hops hnd
      exact ih (applyOp r op) (fun o ho => hops o (by simp [ho]))
        (applyOp_preserves_noDupKeys r op (hops op (by simp)) hnd)
  exact main ops (ModelRegistry.mk []) h (by simp [NoDupKeys])

/-- Witness for the amended C1: two adds (second one a duplicate key, hence
rejected) followed by a remove leave unique keys. -/
theorem C1_add_remove_preserve_unique_keys_witness :
    NoDupKeys (applyOps (ModelRegistry.mk [])
      [RegistryOp.add mA, RegistryOp.add mA2, RegistryOp.remove "m" "1"])._models := by
  apply C1_add_remove_preserve_unique_keys
  intro op hop doc
  simp at hop
  rcases hop with rfl | rfl | rfl <;> exact fun h => RegistryOp.noConfusion h

/-- The truncated (empty) state is always among the observable
destination-file contents during a save: `open(filepath, "w")` empties the
file before any byte of the new text lands. -/
theorem nil_mem_save_observable (r : ModelRegistry) (now : DateTime) :
    [] ∈ r.save_observable_contents now := by
  unfold ModelRegistry.save_observable_contents
  rw [List.range_succ_eq_map, List.map_cons]
  have h0 : ((r.save_text now).data.take 0) = [] := rfl
  exact h0 ▸ List.mem_cons_self _ _

/-- C3 fails on the code: `save_to_file` truncates the destination in place
and streams the JSON text directly, so an interruption right after the open
leaves an empty file — a state that is neither the prior content (here, a
previously saved empty registry) nor the new serialized content, both of
which are nonempty and differ from each other. -/
theorem C3_truncated_intermediate_observable :
    [] ∈ (ModelRegistry.mk [mA]).save_observable_contents t2020
    ∧ ([] : List Char) ≠ ((ModelRegistry.mk []).save_text t2020).data
    ∧ ([] : List Char) ≠ ((ModelRegistry.mk [mA]).save_text t2020).data
    ∧ ((ModelRegistry.mk []).save_text t2020).data ≠
        ((ModelRegistry.mk [mA]).save_text t2020).data := by
  exact ⟨nil_mem_save_observable _ _, by decide, by decide, by decide⟩

/-- An ASCII digit rendered by `digitChar` decodes back to its value. -/
theorem readDigit_digitChar (m : Nat) : readDigit (digitChar m) = some (m % 10) := by
  have h : m % 10 < 10 := Nat.mod_lt _ (by omega)
  unfold digitChar
  generalize hj : m % 10 = j at *
  interval_cases j <;> rfl

/-- Reading back a `k`-digit zero-padded rendering yields the low-order `k`
digits of the rendered number, leaving the rest of the input untouched. -/
theorem readDigits_padNum (k : Nat) : ∀ (acc n : Nat) (rest : List Char),
    readDigits k acc (padNum k n ++ rest) = some (acc * 10 ^ k + n % 10 ^ k, rest) := by
  induction k with
  | zero =>
    intro acc n rest
    simp [readDigits, padNum, Nat.mod_one]
  | succ k ih =>
    intro acc n rest
    rw [show padNum (k + 1) n = digitChar (n / 10 ^ k) :: padNum k n from rfl,
      List.cons_append]
    rw [show readDigits (k + 1) acc (digitChar (n / 10 ^ k) :: (padNum k n ++ rest))
        = (match readDigit (digitChar (n / 10 ^ k)) with
           | some d => readDigits k (acc * 10 + d) (padNum k n ++ rest)
           | none => none) from rfl]
    rw [readDigit_digitChar]
    rw [show (match some (n / 10 ^ k % 10) with
           | some d => readDigits k (acc * 10 + d) (padNum k n ++ rest)
           | none => none)
        = readDigits k (acc * 10 + n / 10 ^ k % 10) (padNum k n ++ rest) from rfl]
    rw [ih]
    congr 2
    have hmm : n % (10 ^ k * 10) = n % 10 ^ k + 10 ^ k * (n / 10 ^ k % 10) := Nat.mod_mul
    rw [pow_succ, hmm]
    ring

/-- The trailing-segment form of `readDigits_padNum`. -/
theorem readDigits_padNum_nil (k acc n : Nat) :
    readDigits k acc (padNum k n) = some (acc * 10 ^ k + n % 10 ^ k, []) := by
  have h := readDigits_padNum k acc n []
  rwa [List.append_nil] at h

/-- No month has more than 31 days. -/
theorem daysInMonth_le (y m : Nat) : daysInMonth y m ≤ 31 := by
  unfold daysInMonth
  split
  · split <;> omega
  · split <;> omega

/-- `fromisoformat` inverts `isoformat` exactly on every datetime that
satisfies the constructor's range validation. -/
theorem fromisoformat_isoformat (d : DateTime) (h : d.Valid) :
    fromisoformat (isoformat d) = some d := by
  obtain ⟨y, mo, da, hh, mi, s, us⟩ := d
  unfold DateTime.Valid at h
  dsimp only at h
  obtain ⟨h1, h2, h3, h4, h5, h6, h7, h8, h9, h10⟩ := h
  have hda31 : da ≤ 31 := le_trans h6 (daysInMonth_le y mo)
  have hy2 : y % 10000 = y := Nat.mod_eq_of_lt (by omega)
  have hmo2 : mo % 100 = mo := Nat.mod_eq_of_lt (by omega)
  have hda2 : da % 100 = da := Nat.mod_eq_of_lt (by omega)
  have hhh2 : hh % 100 = hh := Nat.mod_eq_of_lt (by omega)
  have hmi2 : mi % 100 = mi := Nat.mod_eq_of_lt (by omega)
  have hs2 : s % 100 = s := Nat.mod_eq_of_lt (by omega)
  have hus2 : us % 1000000 = us := Nat.mod_eq_of_lt (by omega)
  have hvalid : DateTime.Valid ⟨y, mo, da, hh, mi, s, us⟩ := by
    unfold DateTime.Valid
    exact ⟨h1, h2, h3, h4, h5, h6, h7, h8, h9, h10⟩
  unfold fromisoformat isoformat fromisoformatChars
  by_cases hus : us = 0
  · subst hus
    simp [Option.bind, List.cons_append, List.append_assoc, readDigits_padNum,
      readDigits_padNum_nil, expectChar, hy2, hmo2, hda2, hhh2, hmi2, hs2, hvalid]
  · simp [Option.bind, List.cons_append, List.append_assoc, readDigits_padNum,
      readDigits_padNum_nil, expectChar, hus, hy2, hmo2, hda2, hhh2, hmi2, hs2,
      hus2, hvalid]

/-- A `k`-digit padded rendering has exactly `k` characters. -/
theorem padNum_length (k : Nat) : ∀ n, (padNum k n).length = k := by
  induction k with
  | zero => intro n; rfl
  | succ k ih => intro n; simp [padNum, ih]

/-- An `isoformat` rendering is never the empty string (so it is truthy). -/
theorem isoformat_data_ne_nil (d : DateTime) : (isoformat d).data ≠ [] := by
  intro hnil
  have hlen := congrArg List.length hnil
  simp [isoformat, padNum_length] at hlen

/-- Bind on a successful `Except` applies the continuation. -/
theorem except_ok_bind {α β : Type} (a : α) (f : α → Except PyError β) :
    (Except.ok a >>= f : Except PyError β) = f a := rfl

/-- `isoformat` output is truthy as a JSON string. -/
theorem isoformat_truthy (d : DateTime) : (Json.str (isoformat d)).truthy = true := rfl

/-- Deserializing the serialized form of any model with range-valid
timestamps re-runs construction on the identical field values. -/
theorem from_dict_to_dict (m : Model) (now : DateTime)
    (hc : m.created_date.Valid)
    (hd : ∀ d0, m.deprecation_date = some d0 → d0.Valid)
    (hr : ∀ r0, m.retirement_date = some r0 → r0.Valid) :
    Model.from_dict (m.to_dict now) =
      Model.initExplicit m.name m.version m.created_date m.deprecation_date
        m.retirement_date := by
  obtain ⟨name, version, c, dep, ret⟩ := m
  dsimp only at hc hd hr ⊢
  rcases dep with _ | d <;> rcases ret with _ | r
  · simp [Model.to_dict, Model.from_dict, dictGetItem, dictGet, dictGetD,
      List.find?, Json.asStr, Json.truthy, fromisoformatJson,
      except_ok_bind, fromisoformat_isoformat c hc]
  · have hrv := hr r rfl
    simp [Model.to_dict, Model.from_dict, dictGetItem, dictGet, dictGetD,
      List.find?, Json.asStr, Json.truthy, isoformat_truthy, fromisoformatJson,
      except_ok_bind, isoformat_data_ne_nil,
      fromisoformat_isoformat c hc, fromisoformat_isoformat r hrv]
  · have hdv := hd d rfl
    simp [Model.to_dict, Model.from_dict, dictGetItem, dictGet, dictGetD,
      List.find?, Json.asStr, Json.truthy, isoformat_truthy, fromisoformatJson,
      except_ok_bind, isoformat_data_ne_nil,
      fromisoformat_isoformat c hc, fromisoformat_isoformat d hdv]
  · have hdv := hd d rfl
    have hrv := hr r rfl
    simp [Model.to_dict, Model.from_dict, dictGetItem, dictGet, dictGetD,
      List.find?, Json.asStr, Json.truthy, isoformat_truthy, fromisoformatJson,
      except_ok_bind, isoformat_data_ne_nil,
      fromisoformat_isoformat c hc, fromisoformat_isoformat d hdv,
      fromisoformat_isoformat r hrv]

/-- C7: for every model with range-valid timestamps, deserializing its
serialized form re-runs construction on the exact same name, version and
timestamps (so orderings violating I1-I3 fail with construction's error
kinds); when validation passes, the round trip reproduces the model
exactly — in particular to second-level precision. -/
theorem C7_serialization_roundtrip (m : Model) (now : DateTime)
    (hc : m.created_date.Valid)
    (hd : ∀ d0, m.deprecation_date = some d0 → d0.Valid)
    (hr : ∀ r0, m.retirement_date = some r0 → r0.Valid) :
    Model.from_dict (m.to_dict now) =
      Model.initExplicit m.name m.version m.created_date m.deprecation_date
        m.retirement_date
    ∧ (Model._validate_dates m.created_date m.deprecation_date m.retirement_date
        = Except.ok () →
       Model.from_dict (m.to_dict now) = Except.ok m) := by
  have h1 := from_dict_to_dict m now hc hd hr
  refine ⟨h1, fun hv => ?_⟩
  rw [h1]
  unfold Model.initExplicit
  rw [hv]

/-- Witness for C7: the fully dated model round-trips to itself. -/
theorem C7_serialization_roundtrip_witness :
    Model.from_dict (mFull.to_dict t2020) = Except.ok mFull := by
  refine (C7_serialization_roundtrip mFull t2020 (by decide) ?_ ?_).2 (by rfl)
  · intro d0 h
    rw [show mFull.deprecation_date = some t2021 from rfl] at h
    cases h
    decide
  · intro r0 h
    rw [show mFull.retirement_date = some t2022 from rfl] at h
    cases h
    decide
